import Mathlib

/-!
# Verification of the `ReportGenerator` pipeline (`src/main.py`)

Shallow embedding of the five-stage report-generation workflow:
a topic cache keyed by topic string, a search stage with a bounded
retry loop, four downstream LLM-agent stages, and a generator-based
`run` entry point.  External agent calls are modelled by an
environment of oracles (`Env`); the generator's observable behaviour
is modelled as an ordered trace of events (yields, agent calls,
cache writes, warning log entries) together with the final session
state and a flag recording whether an exception propagated.
-/

namespace ReportGen

/-- Python truthiness of an `Optional[str]` value: `None` and `""` are
falsy, every other string is truthy. -/
def pyTruthyStr : Option String → Bool
  | none => false
  | some s => s != ""

/-- The payload serialized with `json.dumps` and sent to an agent.
Every payload in the source is either a bare string
(`json.dumps(search_results)`) or a flat dict whose values are
strings or `None` (`writer_input`). -/
inductive JVal where
  | jstr : String → JVal
  | jobj : List (String × Option String) → JVal
deriving DecidableEq

/-- `True` when the string `t` occurs as a value inside the payload
(as the whole string payload, or as one of the dict values). -/
def JVal.hasVal : JVal → String → Bool
  | .jstr s, t => s == t
  | .jobj fs, t => fs.any fun p => p.2 == some t

/-- The five agents of the workflow, in pipeline order. -/
inductive AgentId where
  | searcher | nlp | comparison | swot | report
deriving DecidableEq

/-- Event kind of a yielded `RunResponse` (`phi.workflow.RunEvent`):
either a terminal completion or a streamed content chunk. -/
inductive RunEvent where
  | workflow_completed | run_response
deriving DecidableEq

/-- A yielded output event (`phi.workflow.RunResponse`): optional
content plus the event kind. -/
structure RunResponse where
  content : Option String
  event : RunEvent
deriving DecidableEq

/-- Observable events of one `run` invocation, in execution order. -/
inductive Ev where
  /-- an output event yielded to the consumer -/
  | yieldEv : RunResponse → Ev
  /-- an invocation of an agent with its serialized input payload -/
  | callEv : AgentId → JVal → Ev
  /-- a write of `data` under `topic` into the topic cache -/
  | cacheWriteEv : String → Option String → Ev
  /-- a `logger.warning` failure log entry of the search retry loop -/
  | warnEv : Ev
deriving DecidableEq

/-- The workflow session state (`self.session_state`): the `"topic"`
key, when present, holds the topic cache, a dict from topic string to
`Optional[str]` report text (modelled as an association list, as a
Python dict is an insertion-ordered finite map); all other keys of
the session dict are kept opaque in `others`. -/
structure SessionState where
  topicKey : Option (List (String × Option String))
  others : List (String × String)
deriving DecidableEq

/-- Python dict assignment `d[k] = v`: replace the value in place when
the key is present, otherwise append a new binding. -/
def dictSet (d : List (String × Option String)) (k : String) (v : Option String) :
    List (String × Option String) :=
  if (d.lookup k).isSome then
    d.map fun p => if p.1 = k then (k, v) else p
  else d ++ [(k, v)]

/-- `ReportGenerator.get_cached_topic`:
`return self.session_state.get("topic", {}).get(topic)`.
State passing is explicit; the method performs no mutation, so the
returned state mirrors the source body, which only reads. -/
def get_cached_topic (st : SessionState) (topic : String) :
    Option String × SessionState :=
  (((st.topicKey.getD []).lookup topic).join, st)

/-- `ReportGenerator.add_topic_to_cache`:
`self.session_state.setdefault("topic", {})` followed by
`self.session_state["topic"][topic] = topic_data`. -/
def add_topic_to_cache (st : SessionState) (topic : String)
    (topic_data : Option String) : SessionState :=
  { st with topicKey := some (dictSet (st.topicKey.getD []) topic topic_data) }

/-- Oracles for the external agent calls.  `searcherRun` is indexed by
the attempt number because retried searches may return different
results; its value is `none` for a falsy (`None`) response object and
`some c` for a response whose `.content` is `c`.  The four downstream
oracles map the serialized input payload to the response `.content`.
`reportRunStream` returns the content chunks of the streamed response;
`Except.error` models a raised exception of the underlying call.

Modelled from the spec for the external agent framework: after full
consumption of a streamed run, the agent's accumulated
`run_response.content` is the concatenation of all streamed chunks. -/
structure Env where
  searcherRun : Nat → Except Unit (Option (Option String))
  nlpRun : JVal → Except Unit (Option String)
  comparisonRun : JVal → Except Unit (Option String)
  swotRun : JVal → Except Unit (Option String)
  reportRunStream : JVal → Except Unit (List String)

/-- The falsiness test of the search loop:
`if not searcher_response or not searcher_response.content`. -/
def responseFalsy : Option (Option String) → Bool
  | none => true
  | some c => !pyTruthyStr c

/-- `MAX_ATTEMPTS = 3` of `get_search_results`. -/
def MAX_ATTEMPTS : Nat := 3

/-- One iteration-peeling form of the retry loop of
`get_search_results`: `attempt` is the current attempt index, the
second argument the number of attempts left.  A raised exception or a
falsy response logs a warning and moves to the next attempt; a truthy
response returns its content at once.  Returns the result
(`None` when every attempt failed) and the emitted events. -/
def searchLoop (env : Env) (topic : String) (attempt : Nat) :
    Nat → Option String × List Ev
  | 0 => (none, [])
  | remaining + 1 =>
    match env.searcherRun attempt with
    | .error _ =>
      let r := searchLoop env topic (attempt + 1) remaining
      (r.1, .callEv .searcher (.jstr topic) :: .warnEv :: r.2)
    | .ok resp =>
      if responseFalsy resp then
        let r := searchLoop env topic (attempt + 1) remaining
        (r.1, .callEv .searcher (.jstr topic) :: .warnEv :: r.2)
      else
        (resp.join, [.callEv .searcher (.jstr topic)])

/-- `ReportGenerator.get_search_results`: up to `MAX_ATTEMPTS`
attempts starting at attempt 0. -/
def get_search_results (env : Env) (topic : String) :
    Option String × List Ev :=
  searchLoop env topic 0 MAX_ATTEMPTS

/-- Input of `nlp_preprocessing`'s agent call:
`json.dumps(search_results, indent=4)`. -/
def nlpPayload (search_results : String) : JVal := .jstr search_results

/-- `writer_input` of `feature_comparison`:
`{"topic": topic, "search results": search_results}`. -/
def comparisonPayload (topic : String) (search_results : Option String) : JVal :=
  .jobj [("topic", some topic), ("search results", search_results)]

/-- `writer_input` of `swot_analysis`:
`{"topic": topic, "search results": search_results, "comparison": comparison}`. -/
def swotPayload (topic : String) (search_results comparison : Option String) : JVal :=
  .jobj [("topic", some topic), ("search results", search_results),
         ("comparison", comparison)]

/-- `writer_input` of `generate_report`: `{"topic": topic,
"search results": search_results, "comparison": comparison,
"SWOT_Analyis": swot}`. -/
def reportPayload (topic : String) (search_results comparison swot : Option String) :
    JVal :=
  .jobj [("topic", some topic), ("search results", search_results),
         ("comparison", comparison), ("SWOT_Analyis", swot)]

/-- Result of one `run` invocation: the ordered event trace, the final
session state, and `ok = false` when an exception propagated out of
the generator. -/
structure RunResult where
  trace : List Ev
  state : SessionState
  ok : Bool
deriving DecidableEq

/-- `ReportGenerator.generate_report`: streams the report agent's
chunks as output events, then caches `report_agent.run_response.content`
(the concatenation of the streamed chunks, see `Env`) under `topic`. -/
def generate_report (env : Env) (st : SessionState) (topic : String)
    (search_results comparison swot : Option String) : RunResult :=
  let payload := reportPayload topic search_results comparison swot
  match env.reportRunStream payload with
  | .error _ => ⟨[.callEv .report payload], st, false⟩
  | .ok chunks =>
    ⟨.callEv .report payload ::
       ((chunks.map fun c => Ev.yieldEv ⟨some c, .run_response⟩) ++
        [.cacheWriteEv topic (some (String.join chunks))]),
     add_topic_to_cache st topic (some (String.join chunks)), true⟩

/-- `ReportGenerator.run`: cache short-circuit, search with retry and
the "not found" terminal message, then the Normalize, Compare, SWOT
and Synthesis stages in sequence; an exception of a downstream stage
propagates (trace stops at the failing call, `ok = false`). -/
def runFn (env : Env) (st : SessionState) (topic : String)
    (use_cache : Bool) : RunResult :=
  let cached_topic := (get_cached_topic st topic).1
  if use_cache && pyTruthyStr cached_topic then
    ⟨[.yieldEv ⟨cached_topic, .workflow_completed⟩], st, true⟩
  else
    let sres := get_search_results env topic
    match sres.1 with
    | none =>
      ⟨sres.2 ++
         [.yieldEv ⟨some ("Sorry, could not find any articles on the topic: "
            ++ topic), .workflow_completed⟩],
       st, true⟩
    | some s =>
      match env.nlpRun (nlpPayload s) with
      | .error _ => ⟨sres.2 ++ [.callEv .nlp (nlpPayload s)], st, false⟩
      | .ok preprocessed =>
        match env.comparisonRun (comparisonPayload topic preprocessed) with
        | .error _ =>
          ⟨sres.2 ++ [.callEv .nlp (nlpPayload s),
             .callEv .comparison (comparisonPayload topic preprocessed)],
           st, false⟩
        | .ok comparison =>
          match env.swotRun (swotPayload topic preprocessed comparison) with
          | .error _ =>
            ⟨sres.2 ++ [.callEv .nlp (nlpPayload s),
               .callEv .comparison (comparisonPayload topic preprocessed),
               .callEv .swot (swotPayload topic preprocessed comparison)],
             st, false⟩
          | .ok swot =>
            let gr := generate_report env st topic preprocessed comparison swot
            ⟨sres.2 ++ [.callEv .nlp (nlpPayload s),
               .callEv .comparison (comparisonPayload topic preprocessed),
               .callEv .swot (swotPayload topic preprocessed comparison)] ++
               gr.trace,
             gr.state, gr.ok⟩

/-! ## Trace observers -/

/-- The agents invoked along a trace, in order. -/
def agentCalls (t : List Ev) : List AgentId :=
  t.filterMap fun e => match e with
    | .callEv a _ => some a
    | _ => none

/-- The input payloads of the calls to agent `a` along a trace. -/
def callsTo (t : List Ev) (a : AgentId) : List JVal :=
  t.filterMap fun e => match e with
    | .callEv b p => if b = a then some p else none
    | _ => none

/-- The output events yielded along a trace, in order. -/
def yields (t : List Ev) : List RunResponse :=
  t.filterMap fun e => match e with
    | .yieldEv r => some r
    | _ => none

/-- The cache writes performed along a trace, in order. -/
def cacheWrites (t : List Ev) : List (String × Option String) :=
  t.filterMap fun e => match e with
    | .cacheWriteEv k v => some (k, v)
    | _ => none

/-- Whether an event is a yielded output event. -/
def isYield : Ev → Bool
  | .yieldEv _ => true
  | _ => false

/-- Whether an event is a warning log entry. -/
def isWarn : Ev → Bool
  | .warnEv => true
  | _ => false

/-- Number of failure log entries along a trace. -/
def warnCount (t : List Ev) : Nat := (t.filter isWarn).length

/-- Generator semantics of partial consumption: the events that have
executed after the consumer pulled `k` items.  Nothing runs before the
first pull; pulling one item runs everything up to and including the
next yield; the events after the last yield run only on the pull that
ends the iteration. -/
def consumed : Nat → List Ev → List Ev
  | 0, _ => []
  | _ + 1, [] => []
  | k + 1, e :: rest =>
    if isYield e then e :: consumed k rest
    else e :: consumed (k + 1) rest

/-- Whether attempt `j` of the search fails (raises, or returns a
falsy response). -/
def attemptFails (env : Env) (j : Nat) : Bool :=
  match env.searcherRun j with
  | .error _ => true
  | .ok resp => responseFalsy resp

/-- The possible downstream call sequences: each is the list of
downstream agents invoked when the pipeline advances that far. -/
def downstreamChains : List (List AgentId) :=
  [[], [.nlp], [.nlp, .comparison], [.nlp, .comparison, .swot],
   [.nlp, .comparison, .swot, .report]]

/-! ## Helper lemmas -/

theorem lookup_cons_eq {α : Type} (k k' : String) (b : α)
    (tl : List (String × α)) :
    ((k, b) :: tl).lookup k' = if k' == k then some b else tl.lookup k' := by
  simp only [List.lookup]
  split <;> rename_i h <;> simp_all

theorem mapReplace_lookup_self (d : List (String × Option String))
    (k : String) (v : Option String) (hs : (d.lookup k).isSome) :
    ((d.map fun p => if p.1 = k then (k, v) else p).lookup k) = some v := by
  induction d with
  | nil => simp at hs
  | cons p tl ih =>
    obtain ⟨a, b⟩ := p
    by_cases hak : a = k
    · subst hak
      simp [lookup_cons_eq]
    · rw [lookup_cons_eq] at hs
      have hka : (k == a) = false := by
        simp [Ne.symm hak]
      rw [hka] at hs
      simp only [List.map_cons, if_neg hak, lookup_cons_eq, hka, if_false]
      exact ih hs

theorem mapReplace_lookup_other (d : List (String × Option String))
    (k : String) (v : Option String) (k' : String) (hne : k' ≠ k) :
    ((d.map fun p => if p.1 = k then (k, v) else p).lookup k') = d.lookup k' := by
  induction d with
  | nil => simp
  | cons p tl ih =>
    obtain ⟨a, b⟩ := p
    by_cases hak : a = k
    · subst hak
      have hka : (k' == a) = false := by simp [hne]
      simp [lookup_cons_eq, hka, ih]
    · simp only [List.map_cons, if_neg hak, lookup_cons_eq]
      split <;> simp [ih]

theorem appendOne_lookup (d : List (String × Option String))
    (k : String) (v : Option String) (k' : String) :
    (d ++ [(k, v)]).lookup k' =
      ((d.lookup k').orElse fun _ => if k' == k then some v else none) := by
  induction d with
  | nil => simp [lookup_cons_eq]
  | cons p tl ih =>
    obtain ⟨a, b⟩ := p
    rw [List.cons_append, lookup_cons_eq, lookup_cons_eq]
    split <;> simp [ih]

theorem dictSet_lookup_self (d : List (String × Option String))
    (k : String) (v : Option String) : (dictSet d k v).lookup k = some v := by
  unfold dictSet
  split
  · rename_i hs
    exact mapReplace_lookup_self d k v hs
  · rename_i hs
    rw [appendOne_lookup]
    have : d.lookup k = none := by
      cases h : d.lookup k with
      | none => rfl
      | some x => rw [h] at hs; simp at hs
    simp [this]

theorem dictSet_lookup_other (d : List (String × Option String))
    (k : String) (v : Option String) (k' : String) (hne : k' ≠ k) :
    (dictSet d k v).lookup k' = d.lookup k' := by
  unfold dictSet
  split
  · exact mapReplace_lookup_other d k v k' hne
  · rw [appendOne_lookup]
    have : (k' == k) = false := by simp [hne]
    simp only [this, if_false]
    cases d.lookup k' <;> rfl

theorem agentCalls_append (s t : List Ev) :
    agentCalls (s ++ t) = agentCalls s ++ agentCalls t :=
  List.filterMap_append ..

theorem yields_append (s t : List Ev) :
    yields (s ++ t) = yields s ++ yields t :=
  List.filterMap_append ..

theorem cacheWrites_append (s t : List Ev) :
    cacheWrites (s ++ t) = cacheWrites s ++ cacheWrites t :=
  List.filterMap_append ..

theorem callsTo_append (s t : List Ev) (a : AgentId) :
    callsTo (s ++ t) a = callsTo s a ++ callsTo t a :=
  List.filterMap_append ..

theorem warnCount_append (s t : List Ev) :
    warnCount (s ++ t) = warnCount s + warnCount t := by
  simp [warnCount, List.filter_append]

theorem searchLoop_zero (env : Env) (topic : String) (a : Nat) :
    searchLoop env topic a 0 = (none, []) := rfl

theorem searchLoop_succ_err (env : Env) (topic : String) (a n : Nat)
    (u : Unit) (h : env.searcherRun a = .error u) :
    searchLoop env topic a (n + 1) =
      ((searchLoop env topic (a + 1) n).1,
       .callEv .searcher (.jstr topic) :: .warnEv ::
         (searchLoop env topic (a + 1) n).2) := by
  simp only [searchLoop, h]

theorem searchLoop_succ_falsy (env : Env) (topic : String) (a n : Nat)
    (resp : Option (Option String)) (h : env.searcherRun a = .ok resp)
    (hf : responseFalsy resp = true) :
    searchLoop env topic a (n + 1) =
      ((searchLoop env topic (a + 1) n).1,
       .callEv .searcher (.jstr topic) :: .warnEv ::
         (searchLoop env topic (a + 1) n).2) := by
  simp only [searchLoop, h, hf, if_true]

theorem searchLoop_succ_ok (env : Env) (topic : String) (a n : Nat)
    (resp : Option (Option String)) (h : env.searcherRun a = .ok resp)
    (hf : responseFalsy resp = false) :
    searchLoop env topic a (n + 1) =
      (resp.join, [.callEv .searcher (.jstr topic)]) := by
  simp only [searchLoop, h, hf, Bool.false_eq_true, if_false]

/-- One-step case analysis of the loop on the current attempt. -/
theorem searchLoop_succ_cases (env : Env) (topic : String) (a n : Nat) :
    (attemptFails env a = true ∧
      searchLoop env topic a (n + 1) =
        ((searchLoop env topic (a + 1) n).1,
         .callEv .searcher (.jstr topic) :: .warnEv ::
           (searchLoop env topic (a + 1) n).2)) ∨
    (∃ resp, env.searcherRun a = .ok resp ∧ responseFalsy resp = false ∧
      searchLoop env topic a (n + 1) =
        (resp.join, [.callEv .searcher (.jstr topic)])) := by
  cases h : env.searcherRun a with
  | error u =>
    exact Or.inl ⟨by simp [attemptFails, h], searchLoop_succ_err env topic a n u h⟩
  | ok resp =>
    cases hf : responseFalsy resp with
    | true =>
      exact Or.inl ⟨by simp [attemptFails, h, hf],
        searchLoop_succ_falsy env topic a n resp h hf⟩
    | false =>
      exact Or.inr ⟨resp, rfl, hf, searchLoop_succ_ok env topic a n resp h hf⟩

/-- Every event of the search loop is a searcher call or a warning. -/
theorem searchLoop_mem (env : Env) (topic : String) :
    ∀ (f a : Nat), ∀ e ∈ (searchLoop env topic a f).2,
      e = .callEv .searcher (.jstr topic) ∨ e = .warnEv := by
  intro f
  induction f with
  | zero => intro a e he; simp [searchLoop_zero] at he
  | succ n ih =>
    intro a e he
    rcases searchLoop_succ_cases env topic a n with ⟨_, heq⟩ | ⟨resp, _, _, heq⟩
    · rw [heq] at he
      simp only [List.mem_cons] at he
      rcases he with h1 | h1 | h1
      · exact Or.inl h1
      · exact Or.inr h1
      · exact ih (a + 1) e h1
    · rw [heq] at he
      simp only [List.mem_cons, List.not_mem_nil, or_false] at he
      exact Or.inl he

theorem searchLoop_yields (env : Env) (topic : String) (f a : Nat) :
    yields (searchLoop env topic a f).2 = [] := by
  rw [yields, List.filterMap_eq_nil_iff]
  intro e he
  rcases searchLoop_mem env topic f a e he with h | h <;> subst h <;> rfl

theorem searchLoop_cacheWrites (env : Env) (topic : String) (f a : Nat) :
    cacheWrites (searchLoop env topic a f).2 = [] := by
  rw [cacheWrites, List.filterMap_eq_nil_iff]
  intro e he
  rcases searchLoop_mem env topic f a e he with h | h <;> subst h <;> rfl

theorem searchLoop_callsTo (env : Env) (topic : String) (f a : Nat)
    (ag : AgentId) (hag : ag ≠ .searcher) :
    callsTo (searchLoop env topic a f).2 ag = [] := by
  rw [callsTo, List.filterMap_eq_nil_iff]
  intro e he
  rcases searchLoop_mem env topic f a e he with h | h <;> subst h
  · simp [Ne.symm hag]
  · rfl

/-- The agent calls of the search loop are some number of searcher
calls, at most one per remaining attempt. -/
theorem searchLoop_agentCalls (env : Env) (topic : String) (f a : Nat) :
    agentCalls (searchLoop env topic a f).2 =
      List.replicate (agentCalls (searchLoop env topic a f).2).length
        AgentId.searcher := by
  rw [List.eq_replicate_iff]
  refine ⟨rfl, ?_⟩
  intro b hb
  rw [agentCalls, List.mem_filterMap] at hb
  obtain ⟨e, he, hmap⟩ := hb
  rcases searchLoop_mem env topic f a e he with h | h <;> subst h
  · simpa using hmap.symm
  · simp at hmap

theorem searchLoop_calls_le (env : Env) (topic : String) :
    ∀ (f a : Nat), (agentCalls (searchLoop env topic a f).2).length ≤ f := by
  intro f
  induction f with
  | zero => intro a; simp [searchLoop_zero, agentCalls]
  | succ n ih =>
    intro a
    rcases searchLoop_succ_cases env topic a n with ⟨_, heq⟩ | ⟨resp, _, _, heq⟩
    · rw [heq]
      simpa [agentCalls, Nat.succ_le_succ_iff] using ih (a + 1)
    · rw [heq]
      simp [agentCalls]

/-- The search loop with at least one attempt left starts with a
searcher call. -/
theorem searchLoop_head (env : Env) (topic : String) (n a : Nat) :
    ∃ rest, (searchLoop env topic a (n + 1)).2 =
      .callEv .searcher (.jstr topic) :: rest := by
  rcases searchLoop_succ_cases env topic a n with ⟨_, heq⟩ | ⟨resp, _, _, heq⟩ <;>
    rw [heq] <;> exact ⟨_, rfl⟩

/-- When every attempt fails, the loop returns the `None` signal and
logs one warning per attempt. -/
theorem searchLoop_all_fail (env : Env) (topic : String) :
    ∀ (f a : Nat), (∀ j, j < f → attemptFails env (a + j) = true) →
      (searchLoop env topic a f).1 = none ∧
      warnCount (searchLoop env topic a f).2 = f := by
  intro f
  induction f with
  | zero => intro a _; simp [searchLoop_zero, warnCount]
  | succ n ih =>
    intro a h
    have h0 : attemptFails env a = true := by simpa using h 0 (Nat.succ_pos n)
    have hshift : ∀ j, j < n → attemptFails env (a + 1 + j) = true := by
      intro j hj
      have := h (j + 1) (Nat.succ_lt_succ hj)
      simpa [Nat.add_assoc, Nat.add_comm 1 j] using this
    rcases searchLoop_succ_cases env topic a n with ⟨_, heq⟩ | ⟨resp, hr, hfalse, heq⟩
    · rw [heq]
      obtain ⟨h1, h2⟩ := ih (a + 1) hshift
      exact ⟨h1, by simp [warnCount, List.filter, isWarn] at h2 ⊢; omega⟩
    · simp [attemptFails, hr, hfalse] at h0

/-- The loop returns the content of the first truthy response, with
one warning per preceding failed attempt. -/
theorem searchLoop_first_success (env : Env) (topic s : String) (hs : s ≠ "") :
    ∀ (i f a : Nat), i < f →
      (∀ j, j < i → attemptFails env (a + j) = true) →
      env.searcherRun (a + i) = .ok (some (some s)) →
      (searchLoop env topic a f).1 = some s ∧
      warnCount (searchLoop env topic a f).2 = i := by
  intro i
  induction i with
  | zero =>
    intro f a hif _ hr
    obtain ⟨n, rfl⟩ : ∃ n, f = n + 1 :=
      ⟨f - 1, (Nat.succ_pred_eq_of_pos hif).symm⟩
    rw [Nat.add_zero] at hr
    have hfalsy : responseFalsy (some (some s)) = false := by
      simp [responseFalsy, pyTruthyStr, hs]
    rw [searchLoop_succ_ok env topic a n _ hr hfalsy]
    exact ⟨rfl, by simp [warnCount, List.filter, isWarn]⟩
  | succ n ih =>
    intro f a hif h hr
    obtain ⟨m, rfl⟩ : ∃ m, f = m + 1 :=
      ⟨f - 1, (Nat.succ_pred_eq_of_pos (Nat.lt_of_le_of_lt (Nat.zero_le _) hif)).symm⟩
    have h0 : attemptFails env a = true := by
      simpa using h 0 (Nat.succ_pos n)
    have hshift : ∀ j, j < n → attemptFails env (a + 1 + j) = true := by
      intro j hj
      have := h (j + 1) (Nat.succ_lt_succ hj)
      simpa [Nat.add_assoc, Nat.add_comm 1 j] using this
    have hr' : env.searcherRun (a + 1 + n) = .ok (some (some s)) := by
      have harith : a + 1 + n = a + (n + 1) := by omega
      rw [harith]; exact hr
    have hlt : n < m := by omega
    rcases searchLoop_succ_cases env topic a m with ⟨_, heq⟩ | ⟨resp, hcall, hfalse, heq⟩
    · rw [heq]
      obtain ⟨h1, h2⟩ := ih m (a + 1) hlt hshift hr'
      exact ⟨h1, by simp [warnCount, List.filter, isWarn] at h2 ⊢; omega⟩
    · simp [attemptFails, hcall, hfalse] at h0

/-! ## Characterization of `runFn` by scenario -/

theorem runFn_hit (env : Env) (st : SessionState) (topic : String) (uc : Bool)
    (h : (uc && pyTruthyStr (get_cached_topic st topic).1) = true) :
    runFn env st topic uc =
      ⟨[.yieldEv ⟨(get_cached_topic st topic).1, .workflow_completed⟩],
       st, true⟩ := by
  simp only [runFn, h, if_true]

theorem runFn_notfound (env : Env) (st : SessionState) (topic : String)
    (uc : Bool)
    (hc : (uc && pyTruthyStr (get_cached_topic st topic).1) = false)
    (hs : (get_search_results env topic).1 = none) :
    runFn env st topic uc =
      ⟨(get_search_results env topic).2 ++
         [.yieldEv ⟨some ("Sorry, could not find any articles on the topic: "
            ++ topic), .workflow_completed⟩],
       st, true⟩ := by
  simp only [runFn, hc, Bool.false_eq_true, if_false, hs]

theorem runFn_nlpErr (env : Env) (st : SessionState) (topic : String)
    (uc : Bool) (s : String) (u : Unit)
    (hc : (uc && pyTruthyStr (get_cached_topic st topic).1) = false)
    (hs : (get_search_results env topic).1 = some s)
    (hn : env.nlpRun (nlpPayload s) = .error u) :
    runFn env st topic uc =
      ⟨(get_search_results env topic).2 ++ [.callEv .nlp (nlpPayload s)],
       st, false⟩ := by
  simp only [runFn, hc, Bool.false_eq_true, if_false, hs, hn]

theorem runFn_cmpErr (env : Env) (st : SessionState) (topic : String)
    (uc : Bool) (s : String) (pre : Option String) (u : Unit)
    (hc : (uc && pyTruthyStr (get_cached_topic st topic).1) = false)
    (hs : (get_search_results env topic).1 = some s)
    (hn : env.nlpRun (nlpPayload s) = .ok pre)
    (hcmp : env.comparisonRun (comparisonPayload topic pre) = .error u) :
    runFn env st topic uc =
      ⟨(get_search_results env topic).2 ++
         [.callEv .nlp (nlpPayload s),
          .callEv .comparison (comparisonPayload topic pre)],
       st, false⟩ := by
  simp only [runFn, hc, Bool.false_eq_true, if_false, hs, hn, hcmp]

theorem runFn_swotErr (env : Env) (st : SessionState) (topic : String)
    (uc : Bool) (s : String) (pre comp : Option String) (u : Unit)
    (hc : (uc && pyTruthyStr (get_cached_topic st topic).1) = false)
    (hs : (get_search_results env topic).1 = some s)
    (hn : env.nlpRun (nlpPayload s) = .ok pre)
    (hcmp : env.comparisonRun (comparisonPayload topic pre) = .ok comp)
    (hsw : env.swotRun (swotPayload topic pre comp) = .error u) :
    runFn env st topic uc =
      ⟨(get_search_results env topic).2 ++
         [.callEv .nlp (nlpPayload s),
          .callEv .comparison (comparisonPayload topic pre),
          .callEv .swot (swotPayload topic pre comp)],
       st, false⟩ := by
  simp only [runFn, hc, Bool.false_eq_true, if_false, hs, hn, hcmp, hsw]

theorem runFn_repErr (env : Env) (st : SessionState) (topic : String)
    (uc : Bool) (s : String) (pre comp sw : Option String) (u : Unit)
    (hc : (uc && pyTruthyStr (get_cached_topic st topic).1) = false)
    (hs : (get_search_results env topic).1 = some s)
    (hn : env.nlpRun (nlpPayload s) = .ok pre)
    (hcmp : env.comparisonRun (comparisonPayload topic pre) = .ok comp)
    (hsw : env.swotRun (swotPayload topic pre comp) = .ok sw)
    (hr : env.reportRunStream (reportPayload topic pre comp sw) = .error u) :
    runFn env st topic uc =
      ⟨(get_search_results env topic).2 ++
         [.callEv .nlp (nlpPayload s),
          .callEv .comparison (comparisonPayload topic pre),
          .callEv .swot (swotPayload topic pre comp)] ++
         [.callEv .report (reportPayload topic pre comp sw)],
       st, false⟩ := by
  simp only [runFn, hc, Bool.false_eq_true, if_false, hs, hn, hcmp, hsw,
    generate_report, hr]

theorem runFn_success (env : Env) (st : SessionState) (topic : String)
    (uc : Bool) (s : String) (pre comp sw : Option String)
    (chunks : List String)
    (hc : (uc && pyTruthyStr (get_cached_topic st topic).1) = false)
    (hs : (get_search_results env topic).1 = some s)
    (hn : env.nlpRun (nlpPayload s) = .ok pre)
    (hcmp : env.comparisonRun (comparisonPayload topic pre) = .ok comp)
    (hsw : env.swotRun (swotPayload topic pre comp) = .ok sw)
    (hr : env.reportRunStream (reportPayload topic pre comp sw) = .ok chunks) :
    runFn env st topic uc =
      ⟨(get_search_results env topic).2 ++
         [.callEv .nlp (nlpPayload s),
          .callEv .comparison (comparisonPayload topic pre),
          .callEv .swot (swotPayload topic pre comp)] ++
         (.callEv .report (reportPayload topic pre comp sw) ::
           ((chunks.map fun c => Ev.yieldEv ⟨some c, .run_response⟩) ++
            [.cacheWriteEv topic (some (String.join chunks))])),
       add_topic_to_cache st topic (some (String.join chunks)), true⟩ := by
  simp only [runFn, hc, Bool.false_eq_true, if_false, hs, hn, hcmp, hsw,
    generate_report, hr]

/-- On a cache miss the trace starts with the search-stage events. -/
theorem runFn_miss_shape (env : Env) (st : SessionState) (topic : String)
    (uc : Bool)
    (hc : (uc && pyTruthyStr (get_cached_topic st topic).1) = false) :
    ∃ t, (runFn env st topic uc).trace =
      (get_search_results env topic).2 ++ t := by
  cases hs : (get_search_results env topic).1 with
  | none => exact ⟨_, by rw [runFn_notfound env st topic uc hc hs]⟩
  | some s =>
    cases hn : env.nlpRun (nlpPayload s) with
    | error u => exact ⟨_, by rw [runFn_nlpErr env st topic uc s u hc hs hn]⟩
    | ok pre =>
      cases hcmp : env.comparisonRun (comparisonPayload topic pre) with
      | error u =>
        exact ⟨_, by rw [runFn_cmpErr env st topic uc s pre u hc hs hn hcmp]⟩
      | ok comp =>
        cases hsw : env.swotRun (swotPayload topic pre comp) with
        | error u =>
          exact ⟨_, by
            rw [runFn_swotErr env st topic uc s pre comp u hc hs hn hcmp hsw]⟩
        | ok sw =>
          cases hr : env.reportRunStream (reportPayload topic pre comp sw) with
          | error u =>
            exact ⟨_, by
              rw [runFn_repErr env st topic uc s pre comp sw u hc hs hn hcmp
                hsw hr, List.append_assoc]⟩
          | ok chunks =>
            exact ⟨_, by
              rw [runFn_success env st topic uc s pre comp sw chunks hc hs hn
                hcmp hsw hr, List.append_assoc]⟩

theorem agentCalls_nil : agentCalls [] = [] := rfl

theorem agentCalls_cons_call (a : AgentId) (p : JVal) (rest : List Ev) :
    agentCalls (.callEv a p :: rest) = a :: agentCalls rest := rfl

theorem agentCalls_cons_yield (r : RunResponse) (rest : List Ev) :
    agentCalls (.yieldEv r :: rest) = agentCalls rest := rfl

theorem agentCalls_cons_write (k : String) (v : Option String)
    (rest : List Ev) :
    agentCalls (.cacheWriteEv k v :: rest) = agentCalls rest := rfl

theorem cacheWrites_nil : cacheWrites [] = [] := rfl

theorem cacheWrites_cons_call (a : AgentId) (p : JVal) (rest : List Ev) :
    cacheWrites (.callEv a p :: rest) = cacheWrites rest := rfl

theorem cacheWrites_cons_yield (r : RunResponse) (rest : List Ev) :
    cacheWrites (.yieldEv r :: rest) = cacheWrites rest := rfl

theorem cacheWrites_cons_write (k : String) (v : Option String)
    (rest : List Ev) :
    cacheWrites (.cacheWriteEv k v :: rest) = (k, v) :: cacheWrites rest := rfl

theorem callsTo_cons_call_ne (b : AgentId) (p : JVal) (rest : List Ev)
    (a : AgentId) (h : b ≠ a) :
    callsTo (.callEv b p :: rest) a = callsTo rest a := by
  simp [callsTo, List.filterMap_cons, h]

theorem callsTo_cons_call_eq (b : AgentId) (p : JVal) (rest : List Ev) :
    callsTo (.callEv b p :: rest) b = p :: callsTo rest b := by
  simp [callsTo, List.filterMap_cons]

theorem yields_nil : yields [] = [] := rfl

theorem yields_cons_call (a : AgentId) (p : JVal) (rest : List Ev) :
    yields (.callEv a p :: rest) = yields rest := rfl

theorem yields_cons_yield (r : RunResponse) (rest : List Ev) :
    yields (.yieldEv r :: rest) = r :: yields rest := rfl

theorem yields_cons_write (k : String) (v : Option String) (rest : List Ev) :
    yields (.cacheWriteEv k v :: rest) = yields rest := rfl

/-- Chunk yield events contain no agent call. -/
theorem agentCalls_yieldMap (chunks : List String) :
    agentCalls (chunks.map fun c => Ev.yieldEv ⟨some c, .run_response⟩) = [] := by
  induction chunks with
  | nil => rfl
  | cons c tl ih => simp [agentCalls, List.filterMap_cons, ih]

/-- Chunk yield events contain no cache write. -/
theorem cacheWrites_yieldMap (chunks : List String) :
    cacheWrites (chunks.map fun c => Ev.yieldEv ⟨some c, .run_response⟩) = [] := by
  induction chunks with
  | nil => rfl
  | cons c tl ih => simp [cacheWrites, List.filterMap_cons, ih]

/-- Chunk yield events contain no call to any agent. -/
theorem callsTo_yieldMap (chunks : List String) (a : AgentId) :
    callsTo (chunks.map fun c => Ev.yieldEv ⟨some c, .run_response⟩) a = [] := by
  induction chunks with
  | nil => rfl
  | cons c tl ih => simp [callsTo, List.filterMap_cons, ih]

/-- The yielded output events of the chunk stream, in order. -/
theorem yields_yieldMap (chunks : List String) :
    yields (chunks.map fun c => Ev.yieldEv ⟨some c, .run_response⟩) =
      chunks.map fun c => (⟨some c, .run_response⟩ : RunResponse) := by
  induction chunks with
  | nil => rfl
  | cons c tl ih => simpa [yields, List.filterMap_cons] using ih

/-- Every agent call of the search stage is a searcher call. -/
theorem search_agentCalls_searcher (env : Env) (topic : String) :
    ∀ a ∈ agentCalls (get_search_results env topic).2, a = .searcher := by
  intro a ha
  rw [agentCalls, List.mem_filterMap] at ha
  obtain ⟨e, he, hmap⟩ := ha
  rcases searchLoop_mem env topic MAX_ATTEMPTS 0 e he with h2 | h2 <;> subst h2
  · simpa using hmap.symm
  · simp at hmap

/-- The search stage's agent calls are between 1 and `MAX_ATTEMPTS`
searcher calls. -/
theorem search_calls_shape (env : Env) (topic : String) :
    ∃ m, 1 ≤ m ∧ m ≤ MAX_ATTEMPTS ∧
      agentCalls (get_search_results env topic).2 =
        List.replicate m .searcher := by
  refine ⟨(agentCalls (get_search_results env topic).2).length, ?_,
    searchLoop_calls_le env topic MAX_ATTEMPTS 0,
    searchLoop_agentCalls env topic MAX_ATTEMPTS 0⟩
  obtain ⟨r2, hr2⟩ := searchLoop_head env topic 2 0
  have hget : (get_search_results env topic).2 =
      .callEv .searcher (.jstr topic) :: r2 := hr2
  rw [hget]
  simp [agentCalls, List.filterMap_cons]

/-- Partial consumption observes a sublist of the full trace. -/
theorem consumed_sublist : ∀ (k : Nat) (t : List Ev),
    (consumed k t).Sublist t := by
  intro k t
  induction t generalizing k with
  | nil => cases k <;> simp [consumed]
  | cons e rest ih =>
    cases k with
    | zero => simp [consumed]
    | succ k =>
      by_cases hy : isYield e
      · simp only [consumed, hy, if_true]
        exact (ih k).cons₂ e
      · simp only [consumed, hy, Bool.false_eq_true, if_false]
        exact (ih (k + 1)).cons₂ e

/-- Consumption that stays within the yields of `u` never reaches an
appended suffix. -/
theorem consumed_append_le : ∀ (u v : List Ev) (k : Nat),
    k ≤ (yields u).length → consumed k (u ++ v) = consumed k u := by
  intro u
  induction u with
  | nil =>
    intro v k hk
    simp [yields] at hk
    subst hk
    cases v <;> rfl
  | cons e rest ih =>
    intro v k hk
    cases k with
    | zero => rfl
    | succ k =>
      cases e with
      | yieldEv r =>
        have hk' : k ≤ (yields rest).length := by
          simpa [yields, List.filterMap_cons] using hk
        simp only [List.cons_append, consumed, isYield, if_true, List.append_eq]
        rw [ih v k hk']
      | callEv a p =>
        have hk' : k + 1 ≤ (yields rest).length := by
          simpa [yields, List.filterMap_cons] using hk
        simp only [List.cons_append, consumed, isYield, Bool.false_eq_true,
          if_false, List.append_eq]
        rw [ih v (k + 1) hk']
      | cacheWriteEv t d =>
        have hk' : k + 1 ≤ (yields rest).length := by
          simpa [yields, List.filterMap_cons] using hk
        simp only [List.cons_append, consumed, isYield, Bool.false_eq_true,
          if_false, List.append_eq]
        rw [ih v (k + 1) hk']
      | warnEv =>
        have hk' : k + 1 ≤ (yields rest).length := by
          simpa [yields, List.filterMap_cons] using hk
        simp only [List.cons_append, consumed, isYield, Bool.false_eq_true,
          if_false, List.append_eq]
        rw [ih v (k + 1) hk']

/-- If a trace performs no cache write, neither does any partial
consumption of it. -/
theorem cacheWrites_consumed_nil (t : List Ev) (k : Nat)
    (h : cacheWrites t = []) : cacheWrites (consumed k t) = [] := by
  have hsub := (consumed_sublist k t).filterMap
    (f := fun e => match e with
      | Ev.cacheWriteEv key v => some (key, v)
      | _ => none)
  rw [show (List.filterMap _ t) = cacheWrites t from rfl] at hsub
  rw [h] at hsub
  exact List.sublist_nil.mp hsub

theorem search_cacheWrites (env : Env) (topic : String) :
    cacheWrites (get_search_results env topic).2 = [] :=
  searchLoop_cacheWrites env topic MAX_ATTEMPTS 0

theorem search_yields (env : Env) (topic : String) :
    yields (get_search_results env topic).2 = [] :=
  searchLoop_yields env topic MAX_ATTEMPTS 0

theorem search_callsTo (env : Env) (topic : String) (a : AgentId)
    (ha : a ≠ .searcher) :
    callsTo (get_search_results env topic).2 a = [] :=
  searchLoop_callsTo env topic MAX_ATTEMPTS 0 a ha

/-- The run aborted with an uncaught exception, leaving the session
state unchanged and having produced no output event and no cache
write. -/
def abortedUnchanged (r : RunResult) (st : SessionState) : Prop :=
  r.ok = false ∧ r.state = st ∧ yields r.trace = [] ∧ cacheWrites r.trace = []

/-! ## Concrete fixtures -/

/-- An environment where every stage succeeds: search returns `"x"`
on every attempt, the downstream agents return fixed artifacts, and
synthesis streams the two chunks `"r1"`, `"r2"`. -/
def envOk : Env :=
  { searcherRun := fun _ => .ok (some (some "x"))
    nlpRun := fun _ => .ok (some "pre")
    comparisonRun := fun _ => .ok (some "cmp")
    swotRun := fun _ => .ok (some "sw")
    reportRunStream := fun _ => .ok ["r1", "r2"] }

/-- Every search attempt raises. -/
def envAllFail : Env := { envOk with searcherRun := fun _ => .error () }

/-- Attempt 0 raises, attempt 1 returns an empty content, attempt 2
succeeds with `"third"`. -/
def envThird : Env :=
  { envOk with searcherRun := (fun j =>
      if j = 0 then .error ()
      else if j = 1 then .ok (some (some ""))
      else .ok (some (some "third"))) }

/-- The Normalize agent raises. -/
def envNlpErr : Env := { envOk with nlpRun := fun _ => .error () }

/-- Fresh session state: no `"topic"` key at all. -/
def st0 : SessionState := ⟨none, []⟩

/-- A cache holding a truthy report for topic `"Dell"`, plus another
topic's entry and an unrelated session key. -/
def stHit : SessionState :=
  ⟨some [("Dell", some "cached report"), ("IBM", some "ibm report")],
   [("run_id", "42")]⟩

/-- A cache whose entry for `"Dell"` is the empty string. -/
def stEmptyEntry : SessionState := ⟨some [("Dell", some "")], []⟩

/-! ## C1 -/

/-- C1 counterexample: the topic `"Dell"` has an entry in the topic
cache (the empty string), yet `run("Dell", use_cache=True)` does not
short-circuit: it invokes agents, because the cache-hit check tests
truthiness, not key presence.  This falsifies C1 as stated, which
quantifies over every topic that has a cache entry. -/
theorem run_cache_entry_hit_cex :
    ((stEmptyEntry.topicKey.getD []).lookup "Dell").isSome = true ∧
    agentCalls (runFn envOk stEmptyEntry "Dell" true).trace ≠ [] := by
  decide

/-- C1 (amended): for every topic whose cached value is truthy (a
non-`None`, non-empty string), `run(topic, use_cache=True)` yields
exactly one output event — a completion event whose content equals the
cached value — performs no agent call and no cache write, and leaves
the session state unchanged. -/
theorem run_cache_hit_short_circuits (env : Env) (st : SessionState)
    (topic : String)
    (h : pyTruthyStr (get_cached_topic st topic).1 = true) :
    (runFn env st topic true).trace =
      [.yieldEv ⟨(get_cached_topic st topic).1, .workflow_completed⟩] ∧
    (runFn env st topic true).state = st ∧
    agentCalls (runFn env st topic true).trace = [] ∧
    cacheWrites (runFn env st topic true).trace = [] := by
  have heq := runFn_hit env st topic true (by simp [h])
  rw [heq]
  exact ⟨rfl, rfl, rfl, rfl⟩

/-- Witness for `run_cache_hit_short_circuits` at `stHit`, `"Dell"`. -/
theorem run_cache_hit_short_circuits_witness :
    (runFn envOk stHit "Dell" true).trace =
      [.yieldEv ⟨(get_cached_topic stHit "Dell").1, .workflow_completed⟩] ∧
    (runFn envOk stHit "Dell" true).state = stHit ∧
    agentCalls (runFn envOk stHit "Dell" true).trace = [] ∧
    cacheWrites (runFn envOk stHit "Dell" true).trace = [] :=
  run_cache_hit_short_circuits envOk stHit "Dell" (by decide)

/-! ## C9 -/

/-- C9: when the looked-up cache value for `topic` is falsy (absent
key, stored `None`, or the empty string), `run(topic, use_cache=True)`
behaves exactly as `run(topic, use_cache=False)` — it executes the
full pipeline, starting with a searcher call — because the cache-hit
check tests the truthiness of the looked-up value, not key
presence. -/
theorem falsy_cache_entry_is_miss (env : Env) (st : SessionState)
    (topic : String)
    (h : pyTruthyStr (get_cached_topic st topic).1 = false) :
    runFn env st topic true = runFn env st topic false ∧
    ∃ rest, agentCalls (runFn env st topic true).trace =
      .searcher :: rest := by
  have h1 : (true && pyTruthyStr (get_cached_topic st topic).1) = false := by
    simp [h]
  have h2 : (false && pyTruthyStr (get_cached_topic st topic).1) = false := by
    simp
  constructor
  · simp only [runFn, h1, h2, Bool.false_eq_true, if_false]
  · obtain ⟨t, ht⟩ := runFn_miss_shape env st topic true h1
    obtain ⟨r2, hr2⟩ := searchLoop_head env topic 2 0
    have hsr : (get_search_results env topic).2 =
        .callEv .searcher (.jstr topic) :: r2 := hr2
    rw [ht, hsr, agentCalls_append]
    exact ⟨agentCalls r2 ++ agentCalls t, rfl⟩

/-- Witness for `falsy_cache_entry_is_miss`: topic `"Dell"` whose
cache entry is the empty string. -/
theorem falsy_cache_entry_is_miss_witness :
    runFn envOk stEmptyEntry "Dell" true = runFn envOk stEmptyEntry "Dell" false ∧
    ∃ rest, agentCalls (runFn envOk stEmptyEntry "Dell" true).trace =
      .searcher :: rest :=
  falsy_cache_entry_is_miss envOk stEmptyEntry "Dell" (by decide)

/-! ## C10 -/

/-- C10: `get_cached_topic` leaves the session state unchanged, and
`add_topic_to_cache` changes only the entry of the written topic: the
new entry holds the written value, every other topic's entry is
unchanged, and every other key of the session state is unchanged. -/
theorem cache_ops_frame (st : SessionState) (topic t2 : String)
    (d : Option String) (h : t2 ≠ topic) :
    (get_cached_topic st topic).2 = st ∧
    ((add_topic_to_cache st topic d).topicKey.getD []).lookup topic = some d ∧
    ((add_topic_to_cache st topic d).topicKey.getD []).lookup t2 =
      (st.topicKey.getD []).lookup t2 ∧
    (add_topic_to_cache st topic d).others = st.others := by
  refine ⟨rfl, ?_, ?_, rfl⟩
  · simp [add_topic_to_cache, dictSet_lookup_self]
  · simp [add_topic_to_cache, dictSet_lookup_other _ _ _ _ h]

/-- Witness for `cache_ops_frame`: writing `"Dell"` leaves the
`"IBM"` entry alone. -/
theorem cache_ops_frame_witness :
    (get_cached_topic stHit "Dell").2 = stHit ∧
    ((add_topic_to_cache stHit "Dell" (some "new")).topicKey.getD []).lookup
      "Dell" = some (some "new") ∧
    ((add_topic_to_cache stHit "Dell" (some "new")).topicKey.getD []).lookup
      "IBM" = (stHit.topicKey.getD []).lookup "IBM" ∧
    (add_topic_to_cache stHit "Dell" (some "new")).others = stHit.others :=
  cache_ops_frame stHit "Dell" "IBM" (some "new") (by decide)

/-! ## C3 -/

/-- C3 counterexample: with every search attempt failing, the
terminal output's content is the string
`"Sorry, could not find any articles on the topic: Dell"`, which is
not the message `"could not find any articles on the topic: Dell"`
that the claim states.  The actual message carries a `"Sorry, "`
prefix. -/
theorem search_exhausted_message_cex :
    yields (runFn envAllFail st0 "Dell" true).trace =
      [⟨some "Sorry, could not find any articles on the topic: Dell",
        .workflow_completed⟩] ∧
    some "Sorry, could not find any articles on the topic: Dell" ≠
      some "could not find any articles on the topic: Dell" := by
  decide

/-- C3 (amended): when all `MAX_ATTEMPTS` search attempts fail (raise
or return an empty/missing result), `get_search_results` returns the
`None` signal instead of raising, and the run terminates with the
single completion event
`"Sorry, could not find any articles on the topic: {topic}"`,
with no cache write, no downstream stage invoked, and the session
state unchanged. -/
theorem search_exhausted_terminal (env : Env) (st : SessionState)
    (topic : String) (uc : Bool)
    (hc : (uc && pyTruthyStr (get_cached_topic st topic).1) = false)
    (hfail : ∀ j, j < MAX_ATTEMPTS → attemptFails env j = true) :
    (get_search_results env topic).1 = none ∧
    yields (runFn env st topic uc).trace =
      [⟨some ("Sorry, could not find any articles on the topic: " ++ topic),
        .workflow_completed⟩] ∧
    cacheWrites (runFn env st topic uc).trace = [] ∧
    (∀ a ∈ agentCalls (runFn env st topic uc).trace, a = .searcher) ∧
    (runFn env st topic uc).state = st := by
  have hfail0 : ∀ j, j < MAX_ATTEMPTS → attemptFails env (0 + j) = true := by
    intro j hj; simpa using hfail j hj
  have hnone : (get_search_results env topic).1 = none :=
    (searchLoop_all_fail env topic MAX_ATTEMPTS 0 hfail0).1
  have heq := runFn_notfound env st topic uc hc hnone
  rw [heq]
  refine ⟨hnone, ?_, ?_, ?_, rfl⟩
  · rw [yields_append, get_search_results, searchLoop_yields]
    rfl
  · rw [cacheWrites_append, get_search_results, searchLoop_cacheWrites]
    rfl
  · intro a ha
    rw [agentCalls_append] at ha
    rcases List.mem_append.mp ha with h1 | h1
    · rw [agentCalls, List.mem_filterMap] at h1
      obtain ⟨e, he, hmap⟩ := h1
      rcases searchLoop_mem env topic MAX_ATTEMPTS 0 e he with h2 | h2 <;>
        subst h2
      · simpa using hmap.symm
      · simp at hmap
    · simp [agentCalls] at h1

/-- Witness for `search_exhausted_terminal`: every attempt raises. -/
theorem search_exhausted_terminal_witness :
    (get_search_results envAllFail "Dell").1 = none ∧
    yields (runFn envAllFail st0 "Dell" true).trace =
      [⟨some ("Sorry, could not find any articles on the topic: " ++ "Dell"),
        .workflow_completed⟩] ∧
    cacheWrites (runFn envAllFail st0 "Dell" true).trace = [] ∧
    (∀ a ∈ agentCalls (runFn envAllFail st0 "Dell" true).trace,
      a = .searcher) ∧
    (runFn envAllFail st0 "Dell" true).state = st0 :=
  search_exhausted_terminal envAllFail st0 "Dell" true (by decide)
    (by decide)

/-! ## C4 -/

/-- C4: the search stage makes at most `MAX_ATTEMPTS` (3) agent calls
and returns the content of the first truthy response it encounters,
having logged one failure warning per preceding failed attempt; in
particular when attempts 0 and 1 fail and attempt 2 returns a
non-empty content, it returns that third result with exactly 2
failure log entries. -/
theorem search_retry_first_success (env : Env) (topic : String) :
    (agentCalls (get_search_results env topic).2).length ≤ MAX_ATTEMPTS ∧
    (∀ i s, i < MAX_ATTEMPTS → s ≠ "" →
      (∀ j, j < i → attemptFails env j = true) →
      env.searcherRun i = .ok (some (some s)) →
      (get_search_results env topic).1 = some s ∧
      warnCount (get_search_results env topic).2 = i) ∧
    (∀ s, s ≠ "" →
      attemptFails env 0 = true → attemptFails env 1 = true →
      env.searcherRun 2 = .ok (some (some s)) →
      (get_search_results env topic).1 = some s ∧
      warnCount (get_search_results env topic).2 = 2) := by
  have hfirst : ∀ i s, i < MAX_ATTEMPTS → s ≠ "" →
      (∀ j, j < i → attemptFails env j = true) →
      env.searcherRun i = .ok (some (some s)) →
      (get_search_results env topic).1 = some s ∧
      warnCount (get_search_results env topic).2 = i := by
    intro i s hi hs hprev hri
    have hprev0 : ∀ j, j < i → attemptFails env (0 + j) = true := by
      intro j hj; simpa using hprev j hj
    have hri0 : env.searcherRun (0 + i) = .ok (some (some s)) := by
      simpa using hri
    exact searchLoop_first_success env topic s hs i MAX_ATTEMPTS 0 hi hprev0 hri0
  refine ⟨searchLoop_calls_le env topic MAX_ATTEMPTS 0, hfirst, ?_⟩
  intro s hs h0 h1 h2
  refine hfirst 2 s (by norm_num [MAX_ATTEMPTS]) hs ?_ h2
  intro j hj
  interval_cases j
  · exact h0
  · exact h1

/-- Witness for `search_retry_first_success` at `envThird`: attempt 0
raises, attempt 1 is empty, attempt 2 returns `"third"`. -/
theorem search_retry_first_success_witness :
    (get_search_results envThird "Dell").1 = some "third" ∧
    warnCount (get_search_results envThird "Dell").2 = 2 :=
  (search_retry_first_success envThird "Dell").2.2 "third" (by decide)
    (by decide) (by decide) rfl

/-! ## C2 -/

/-- C2: in every run the agent calls are some searcher attempts
(at most `MAX_ATTEMPTS`) followed by a prefix of the downstream chain
Normalize, Compare, SWOT, Report in that strict order; a downstream
stage is invoked only when every one of its predecessors succeeded —
Normalize only when the search returned a result, Compare only when
Normalize also returned, SWOT only when Compare also returned, Report
only when SWOT also returned; and whenever the search stage fails
(returns the `None` signal), only searcher calls occur and no cache
write happens. -/
theorem run_stage_order (env : Env) (st : SessionState) (topic : String)
    (uc : Bool) :
    (∃ m rest, m ≤ MAX_ATTEMPTS ∧ rest ∈ downstreamChains ∧
      agentCalls (runFn env st topic uc).trace =
        List.replicate m .searcher ++ rest) ∧
    (callsTo (runFn env st topic uc).trace .nlp ≠ [] →
      ∃ s, (get_search_results env topic).1 = some s) ∧
    (callsTo (runFn env st topic uc).trace .comparison ≠ [] →
      ∃ s pre, (get_search_results env topic).1 = some s ∧
        env.nlpRun (nlpPayload s) = .ok pre) ∧
    (callsTo (runFn env st topic uc).trace .swot ≠ [] →
      ∃ s pre comp, (get_search_results env topic).1 = some s ∧
        env.nlpRun (nlpPayload s) = .ok pre ∧
        env.comparisonRun (comparisonPayload topic pre) = .ok comp) ∧
    (callsTo (runFn env st topic uc).trace .report ≠ [] →
      ∃ s pre comp sw, (get_search_results env topic).1 = some s ∧
        env.nlpRun (nlpPayload s) = .ok pre ∧
        env.comparisonRun (comparisonPayload topic pre) = .ok comp ∧
        env.swotRun (swotPayload topic pre comp) = .ok sw) ∧
    ((get_search_results env topic).1 = none →
      (∀ a ∈ agentCalls (runFn env st topic uc).trace, a = .searcher) ∧
      cacheWrites (runFn env st topic uc).trace = []) := by
  by_cases hc : (uc && pyTruthyStr (get_cached_topic st topic).1) = true
  · rw [runFn_hit env st topic uc hc]
    refine ⟨⟨0, [], by norm_num [MAX_ATTEMPTS], by simp [downstreamChains],
      by simp [agentCalls]⟩,
      fun h => absurd rfl h, fun h => absurd rfl h,
      fun h => absurd rfl h, fun h => absurd rfl h, ?_⟩
    intro _
    exact ⟨by simp [agentCalls], rfl⟩
  · have hc' : (uc && pyTruthyStr (get_cached_topic st topic).1) = false :=
      Bool.not_eq_true _ ▸ Bool.of_not_eq_true hc
    obtain ⟨m, hm1, hm3, hmrep⟩ := search_calls_shape env topic
    cases hs : (get_search_results env topic).1 with
    | none =>
      rw [runFn_notfound env st topic uc hc' hs]
      have hvac : ∀ (a : AgentId), a ≠ .searcher →
          callsTo ((get_search_results env topic).2 ++
            [Ev.yieldEv ⟨some
               ("Sorry, could not find any articles on the topic: " ++ topic),
             .workflow_completed⟩]) a = [] := by
        intro a ha
        rw [callsTo_append, search_callsTo env topic a ha]
        rfl
      refine ⟨⟨m, [], hm3, by simp [downstreamChains], ?_⟩,
        fun h => absurd (hvac .nlp (by decide)) h,
        fun h => absurd (hvac .comparison (by decide)) h,
        fun h => absurd (hvac .swot (by decide)) h,
        fun h => absurd (hvac .report (by decide)) h, ?_⟩
      · rw [agentCalls_append, hmrep]
        simp [agentCalls]
      · intro _
        constructor
        · intro a ha
          rw [agentCalls_append] at ha
          rcases List.mem_append.mp ha with h1 | h1
          · exact search_agentCalls_searcher env topic a h1
          · simp [agentCalls] at h1
        · rw [cacheWrites_append, get_search_results,
            searchLoop_cacheWrites]
          rfl
    | some s =>
      cases hn : env.nlpRun (nlpPayload s) with
      | error u =>
        rw [runFn_nlpErr env st topic uc s u hc' hs hn]
        have hvac : ∀ (a : AgentId), a ≠ .searcher → AgentId.nlp ≠ a →
            callsTo ((get_search_results env topic).2 ++
              [Ev.callEv .nlp (nlpPayload s)]) a = [] := by
          intro a ha hb
          rw [callsTo_append, search_callsTo env topic a ha,
            callsTo_cons_call_ne _ _ _ _ hb]
          rfl
        refine ⟨⟨m, [.nlp], hm3, by simp [downstreamChains], ?_⟩,
          fun _ => ⟨s, rfl⟩,
          fun h => absurd (hvac .comparison (by decide) (by decide)) h,
          fun h => absurd (hvac .swot (by decide) (by decide)) h,
          fun h => absurd (hvac .report (by decide) (by decide)) h,
          fun h => absurd h (by simp)⟩
        rw [agentCalls_append, hmrep]
        simp [agentCalls]
      | ok pre =>
        cases hcmp : env.comparisonRun (comparisonPayload topic pre) with
        | error u =>
          rw [runFn_cmpErr env st topic uc s pre u hc' hs hn hcmp]
          have hvac : ∀ (a : AgentId), a ≠ .searcher → AgentId.nlp ≠ a →
              AgentId.comparison ≠ a →
              callsTo ((get_search_results env topic).2 ++
                [Ev.callEv .nlp (nlpPayload s),
                 Ev.callEv .comparison (comparisonPayload topic pre)]) a
                = [] := by
            intro a ha h1 h2
            rw [callsTo_append, search_callsTo env topic a ha,
              callsTo_cons_call_ne _ _ _ _ h1,
              callsTo_cons_call_ne _ _ _ _ h2]
            rfl
          refine ⟨⟨m, [.nlp, .comparison], hm3,
              by simp [downstreamChains], ?_⟩,
            fun _ => ⟨s, rfl⟩,
            fun _ => ⟨s, pre, rfl, hn⟩,
            fun h => absurd (hvac .swot (by decide) (by decide)
              (by decide)) h,
            fun h => absurd (hvac .report (by decide) (by decide)
              (by decide)) h,
            fun h => absurd h (by simp)⟩
          rw [agentCalls_append, hmrep]
          simp [agentCalls]
        | ok comp =>
          cases hsw : env.swotRun (swotPayload topic pre comp) with
          | error u =>
            rw [runFn_swotErr env st topic uc s pre comp u hc' hs hn hcmp hsw]
            have hvac : ∀ (a : AgentId), a ≠ .searcher → AgentId.nlp ≠ a →
                AgentId.comparison ≠ a → AgentId.swot ≠ a →
                callsTo ((get_search_results env topic).2 ++
                  [Ev.callEv .nlp (nlpPayload s),
                   Ev.callEv .comparison (comparisonPayload topic pre),
                   Ev.callEv .swot (swotPayload topic pre comp)]) a
                  = [] := by
              intro a ha h1 h2 h3
              rw [callsTo_append, search_callsTo env topic a ha,
                callsTo_cons_call_ne _ _ _ _ h1,
                callsTo_cons_call_ne _ _ _ _ h2,
                callsTo_cons_call_ne _ _ _ _ h3]
              rfl
            refine ⟨⟨m, [.nlp, .comparison, .swot], hm3,
                by simp [downstreamChains], ?_⟩,
              fun _ => ⟨s, rfl⟩,
              fun _ => ⟨s, pre, rfl, hn⟩,
              fun _ => ⟨s, pre, comp, rfl, hn, hcmp⟩,
              fun h => absurd (hvac .report (by decide) (by decide)
                (by decide) (by decide)) h,
              fun h => absurd h (by simp)⟩
            rw [agentCalls_append, hmrep]
            simp [agentCalls]
          | ok sw =>
            cases hr : env.reportRunStream (reportPayload topic pre comp sw) with
            | error u =>
              rw [runFn_repErr env st topic uc s pre comp sw u hc' hs hn hcmp
                hsw hr]
              refine ⟨⟨m, [.nlp, .comparison, .swot, .report], hm3,
                  by simp [downstreamChains], ?_⟩,
                fun _ => ⟨s, rfl⟩,
                fun _ => ⟨s, pre, rfl, hn⟩,
                fun _ => ⟨s, pre, comp, rfl, hn, hcmp⟩,
                fun _ => ⟨s, pre, comp, sw, rfl, hn, hcmp, hsw⟩,
                fun h => absurd h (by simp)⟩
              rw [agentCalls_append, agentCalls_append, hmrep]
              simp [agentCalls]
            | ok chunks =>
              rw [runFn_success env st topic uc s pre comp sw chunks hc' hs hn
                hcmp hsw hr]
              refine ⟨⟨m, [.nlp, .comparison, .swot, .report], hm3,
                  by simp [downstreamChains], ?_⟩,
                fun _ => ⟨s, rfl⟩,
                fun _ => ⟨s, pre, rfl, hn⟩,
                fun _ => ⟨s, pre, comp, rfl, hn, hcmp⟩,
                fun _ => ⟨s, pre, comp, sw, rfl, hn, hcmp, hsw⟩,
                fun h => absurd h (by simp)⟩
              rw [agentCalls_append, agentCalls_append, hmrep]
              simp [agentCalls_cons_call, agentCalls_cons_yield,
                agentCalls_cons_write, agentCalls_append,
                agentCalls_yieldMap, agentCalls_nil]

/-- Witness for `run_stage_order` at the all-success environment. -/
theorem run_stage_order_witness :
    (∃ m rest, m ≤ MAX_ATTEMPTS ∧ rest ∈ downstreamChains ∧
      agentCalls (runFn envOk st0 "Dell" true).trace =
        List.replicate m .searcher ++ rest) ∧
    (callsTo (runFn envOk st0 "Dell" true).trace .nlp ≠ [] →
      ∃ s, (get_search_results envOk "Dell").1 = some s) ∧
    (callsTo (runFn envOk st0 "Dell" true).trace .comparison ≠ [] →
      ∃ s pre, (get_search_results envOk "Dell").1 = some s ∧
        envOk.nlpRun (nlpPayload s) = .ok pre) ∧
    (callsTo (runFn envOk st0 "Dell" true).trace .swot ≠ [] →
      ∃ s pre comp, (get_search_results envOk "Dell").1 = some s ∧
        envOk.nlpRun (nlpPayload s) = .ok pre ∧
        envOk.comparisonRun (comparisonPayload "Dell" pre) = .ok comp) ∧
    (callsTo (runFn envOk st0 "Dell" true).trace .report ≠ [] →
      ∃ s pre comp sw, (get_search_results envOk "Dell").1 = some s ∧
        envOk.nlpRun (nlpPayload s) = .ok pre ∧
        envOk.comparisonRun (comparisonPayload "Dell" pre) = .ok comp ∧
        envOk.swotRun (swotPayload "Dell" pre comp) = .ok sw) ∧
    ((get_search_results envOk "Dell").1 = none →
      (∀ a ∈ agentCalls (runFn envOk st0 "Dell" true).trace,
        a = .searcher) ∧
      cacheWrites (runFn envOk st0 "Dell" true).trace = []) :=
  run_stage_order envOk st0 "Dell" true

/-! ## C5 -/

/-- The three C5 conclusions hold trivially for a trace without any
cache write. -/
theorem c5_of_no_write (r : RunResult) (hw : cacheWrites r.trace = []) :
    (cacheWrites r.trace).length ≤ 1 ∧
    (∀ k, k ≤ (yields r.trace).length →
      cacheWrites (consumed k r.trace) = []) ∧
    (cacheWrites r.trace ≠ [] →
      ∃ m, 1 ≤ m ∧ agentCalls r.trace =
        List.replicate m .searcher ++ [.nlp, .comparison, .swot, .report]) :=
  ⟨by simp [hw], fun k _ => cacheWrites_consumed_nil _ k hw,
   fun hne => absurd hw hne⟩

/-- C5: every run performs at most one cache write; a consumer that
pulls no more output events than the run yields (does not drain the
generator to its end) observes no cache write; and when a cache write
occurs at all, the run completed all five stages. -/
theorem cache_write_after_full_drain (env : Env) (st : SessionState)
    (topic : String) (uc : Bool) :
    (cacheWrites (runFn env st topic uc).trace).length ≤ 1 ∧
    (∀ k, k ≤ (yields (runFn env st topic uc).trace).length →
      cacheWrites (consumed k (runFn env st topic uc).trace) = []) ∧
    (cacheWrites (runFn env st topic uc).trace ≠ [] →
      ∃ m, 1 ≤ m ∧ agentCalls (runFn env st topic uc).trace =
        List.replicate m .searcher ++ [.nlp, .comparison, .swot, .report]) := by
  by_cases hc : (uc && pyTruthyStr (get_cached_topic st topic).1) = true
  · refine c5_of_no_write _ ?_
    rw [runFn_hit env st topic uc hc]
    rfl
  · have hc' : (uc && pyTruthyStr (get_cached_topic st topic).1) = false :=
      Bool.not_eq_true _ ▸ Bool.of_not_eq_true hc
    cases hs : (get_search_results env topic).1 with
    | none =>
      refine c5_of_no_write _ ?_
      rw [runFn_notfound env st topic uc hc' hs]
      rw [cacheWrites_append, search_cacheWrites]
      rfl
    | some s =>
      cases hn : env.nlpRun (nlpPayload s) with
      | error u =>
        refine c5_of_no_write _ ?_
        rw [runFn_nlpErr env st topic uc s u hc' hs hn]
        rw [cacheWrites_append, search_cacheWrites]
        rfl
      | ok pre =>
        cases hcmp : env.comparisonRun (comparisonPayload topic pre) with
        | error u =>
          refine c5_of_no_write _ ?_
          rw [runFn_cmpErr env st topic uc s pre u hc' hs hn hcmp]
          rw [cacheWrites_append, search_cacheWrites]
          rfl
        | ok comp =>
          cases hsw : env.swotRun (swotPayload topic pre comp) with
          | error u =>
            refine c5_of_no_write _ ?_
            rw [runFn_swotErr env st topic uc s pre comp u hc' hs hn hcmp hsw]
            rw [cacheWrites_append, search_cacheWrites]
            rfl
          | ok sw =>
            cases hr : env.reportRunStream (reportPayload topic pre comp sw) with
            | error u =>
              refine c5_of_no_write _ ?_
              rw [runFn_repErr env st topic uc s pre comp sw u hc' hs hn hcmp
                hsw hr]
              rw [cacheWrites_append, cacheWrites_append, search_cacheWrites]
              rfl
            | ok chunks =>
              rw [runFn_success env st topic uc s pre comp sw chunks hc' hs hn
                hcmp hsw hr]
              have hsplit :
                  (get_search_results env topic).2 ++
                    [Ev.callEv .nlp (nlpPayload s),
                     Ev.callEv .comparison (comparisonPayload topic pre),
                     Ev.callEv .swot (swotPayload topic pre comp)] ++
                    (Ev.callEv .report (reportPayload topic pre comp sw) ::
                      ((chunks.map fun c =>
                          Ev.yieldEv ⟨some c, .run_response⟩) ++
                       [Ev.cacheWriteEv topic
                          (some (String.join chunks))])) =
                  ((get_search_results env topic).2 ++
                    [Ev.callEv .nlp (nlpPayload s),
                     Ev.callEv .comparison (comparisonPayload topic pre),
                     Ev.callEv .swot (swotPayload topic pre comp)] ++
                    (Ev.callEv .report (reportPayload topic pre comp sw) ::
                      (chunks.map fun c =>
                        Ev.yieldEv ⟨some c, .run_response⟩))) ++
                  [Ev.cacheWriteEv topic (some (String.join chunks))] := by
                simp [List.append_assoc]
              have hwu : cacheWrites
                  ((get_search_results env topic).2 ++
                    [Ev.callEv .nlp (nlpPayload s),
                     Ev.callEv .comparison (comparisonPayload topic pre),
                     Ev.callEv .swot (swotPayload topic pre comp)] ++
                    (Ev.callEv .report (reportPayload topic pre comp sw) ::
                      (chunks.map fun c =>
                        Ev.yieldEv ⟨some c, .run_response⟩))) = [] := by
                simp [cacheWrites_append, search_cacheWrites,
                  cacheWrites_cons_call, cacheWrites_yieldMap, cacheWrites_nil]
              have hyu : yields
                  ((get_search_results env topic).2 ++
                    [Ev.callEv .nlp (nlpPayload s),
                     Ev.callEv .comparison (comparisonPayload topic pre),
                     Ev.callEv .swot (swotPayload topic pre comp)] ++
                    (Ev.callEv .report (reportPayload topic pre comp sw) ::
                      (chunks.map fun c =>
                        Ev.yieldEv ⟨some c, .run_response⟩))) =
                  chunks.map fun c =>
                    (⟨some c, .run_response⟩ : RunResponse) := by
                simp [yields_append, search_yields, yields_cons_call,
                  yields_yieldMap, yields_nil]
              rw [hsplit]
              refine ⟨?_, ?_, ?_⟩
              · rw [cacheWrites_append, hwu]
                rfl
              · intro k hk
                rw [yields_append, hyu] at hk
                simp only [yields_cons_write, yields_nil,
                  List.append_nil] at hk
                rw [consumed_append_le _ _ k (by rw [hyu]; simpa using hk)]
                exact cacheWrites_consumed_nil _ k hwu
              · intro _
                obtain ⟨m, hm1, _, hmrep⟩ := search_calls_shape env topic
                refine ⟨m, hm1, ?_⟩
                rw [agentCalls_append, agentCalls_append, agentCalls_append,
                  hmrep]
                simp [agentCalls_cons_call, agentCalls_cons_yield,
                  agentCalls_cons_write, agentCalls_append,
                  agentCalls_yieldMap, agentCalls_nil]

/-- Witness for `cache_write_after_full_drain` at the all-success
environment. -/
theorem cache_write_after_full_drain_witness :
    (cacheWrites (runFn envOk st0 "Dell" true).trace).length ≤ 1 ∧
    (∀ k, k ≤ (yields (runFn envOk st0 "Dell" true).trace).length →
      cacheWrites (consumed k (runFn envOk st0 "Dell" true).trace) = []) ∧
    (cacheWrites (runFn envOk st0 "Dell" true).trace ≠ [] →
      ∃ m, 1 ≤ m ∧ agentCalls (runFn envOk st0 "Dell" true).trace =
        List.replicate m .searcher ++ [.nlp, .comparison, .swot, .report]) :=
  cache_write_after_full_drain envOk st0 "Dell" true

/-! ## C6 -/

/-- C6: for a topic with no cache entry, a run in which search
succeeds and every downstream stage succeeds writes exactly one cache
entry, stored under the topic, and its value is the concatenation of
all chunks streamed by the Synthesis stage. -/
theorem final_cache_entry_is_chunk_concat (env : Env) (st : SessionState)
    (topic : String) (uc : Bool) (s : String) (pre comp sw : Option String)
    (chunks : List String)
    (hnc : (st.topicKey.getD []).lookup topic = none)
    (hs : (get_search_results env topic).1 = some s)
    (hn : env.nlpRun (nlpPayload s) = .ok pre)
    (hcmp : env.comparisonRun (comparisonPayload topic pre) = .ok comp)
    (hsw : env.swotRun (swotPayload topic pre comp) = .ok sw)
    (hr : env.reportRunStream (reportPayload topic pre comp sw) = .ok chunks) :
    cacheWrites (runFn env st topic uc).trace =
      [(topic, some (String.join chunks))] ∧
    (((runFn env st topic uc).state.topicKey.getD []).lookup topic) =
      some (some (String.join chunks)) := by
  have hc : (uc && pyTruthyStr (get_cached_topic st topic).1) = false := by
    simp [get_cached_topic, hnc, pyTruthyStr]
  rw [runFn_success env st topic uc s pre comp sw chunks hc hs hn hcmp hsw hr]
  constructor
  · simp [cacheWrites_append, search_cacheWrites, cacheWrites_cons_call,
      cacheWrites_yieldMap, cacheWrites_cons_write, cacheWrites_nil]
  · simp [add_topic_to_cache, dictSet_lookup_self]

/-- Witness for `final_cache_entry_is_chunk_concat`: the all-success
environment caches `"r1r2"`. -/
theorem final_cache_entry_is_chunk_concat_witness :
    cacheWrites (runFn envOk st0 "Dell" true).trace =
      [("Dell", some (String.join ["r1", "r2"]))] ∧
    (((runFn envOk st0 "Dell" true).state.topicKey.getD []).lookup "Dell") =
      some (some (String.join ["r1", "r2"])) :=
  final_cache_entry_is_chunk_concat envOk st0 "Dell" true "x" (some "pre")
    (some "cmp") (some "sw") ["r1", "r2"] rfl (by decide) rfl rfl rfl rfl

/-! ## C7 -/

/-- C7 counterexample: with topic `"Acme Corp"` and search content
`"x"`, the Normalize stage's payload is the bare string `"x"`: it
contains neither the topic (no value of the payload equals — or even
could contain — the 9-character topic) nor anything but the search
result, refuting the claim that every downstream stage receives the
topic together with all previously produced artifacts. -/
theorem downstream_payload_missing_topic_cex :
    callsTo (runFn envOk st0 "Acme Corp" true).trace .nlp = [.jstr "x"] ∧
    JVal.hasVal (.jstr "x") "Acme Corp" = false := by
  decide

/-- C7 (amended): in a run that passes the Search stage, Normalize
receives exactly the raw search-result string (without the topic);
Compare receives the topic and the normalized result; SWOT receives
the topic, the normalized result, and the comparison; Synthesis
receives the topic, the normalized result, the comparison, and the
SWOT analysis.  The topic is a value of each payload from Compare
onwards, and the raw search result is not forwarded past
Normalize. -/
theorem downstream_payloads (env : Env) (st : SessionState)
    (topic : String) (uc : Bool) (s : String) (pre comp sw : Option String)
    (chunks : List String)
    (hc : (uc && pyTruthyStr (get_cached_topic st topic).1) = false)
    (hs : (get_search_results env topic).1 = some s)
    (hn : env.nlpRun (nlpPayload s) = .ok pre)
    (hcmp : env.comparisonRun (comparisonPayload topic pre) = .ok comp)
    (hsw : env.swotRun (swotPayload topic pre comp) = .ok sw)
    (hr : env.reportRunStream (reportPayload topic pre comp sw) = .ok chunks) :
    callsTo (runFn env st topic uc).trace .nlp = [nlpPayload s] ∧
    callsTo (runFn env st topic uc).trace .comparison =
      [comparisonPayload topic pre] ∧
    callsTo (runFn env st topic uc).trace .swot =
      [swotPayload topic pre comp] ∧
    callsTo (runFn env st topic uc).trace .report =
      [reportPayload topic pre comp sw] ∧
    JVal.hasVal (comparisonPayload topic pre) topic = true ∧
    JVal.hasVal (swotPayload topic pre comp) topic = true ∧
    JVal.hasVal (reportPayload topic pre comp sw) topic = true := by
  rw [runFn_success env st topic uc s pre comp sw chunks hc hs hn hcmp hsw hr]
  refine ⟨?_, ?_, ?_, ?_, ?_, ?_, ?_⟩
  · rw [callsTo_append, callsTo_append,
      search_callsTo env topic .nlp (by simp)]
    simp [callsTo, List.filterMap_append, List.filterMap_map]
  · rw [callsTo_append, callsTo_append,
      search_callsTo env topic .comparison (by simp)]
    simp [callsTo, List.filterMap_append, List.filterMap_map]
  · rw [callsTo_append, callsTo_append,
      search_callsTo env topic .swot (by simp)]
    simp [callsTo, List.filterMap_append, List.filterMap_map]
  · rw [callsTo_append, callsTo_append,
      search_callsTo env topic .report (by simp)]
    simp [callsTo, List.filterMap_append, List.filterMap_map]
  · simp [JVal.hasVal, comparisonPayload]
  · simp [JVal.hasVal, swotPayload]
  · simp [JVal.hasVal, reportPayload]

/-- Witness for `downstream_payloads` at the all-success
environment. -/
theorem downstream_payloads_witness :
    callsTo (runFn envOk st0 "Acme" true).trace .nlp = [nlpPayload "x"] ∧
    callsTo (runFn envOk st0 "Acme" true).trace .comparison =
      [comparisonPayload "Acme" (some "pre")] ∧
    callsTo (runFn envOk st0 "Acme" true).trace .swot =
      [swotPayload "Acme" (some "pre") (some "cmp")] ∧
    callsTo (runFn envOk st0 "Acme" true).trace .report =
      [reportPayload "Acme" (some "pre") (some "cmp") (some "sw")] ∧
    JVal.hasVal (comparisonPayload "Acme" (some "pre")) "Acme" = true ∧
    JVal.hasVal (swotPayload "Acme" (some "pre") (some "cmp")) "Acme" = true ∧
    JVal.hasVal (reportPayload "Acme" (some "pre") (some "cmp") (some "sw"))
      "Acme" = true :=
  downstream_payloads envOk st0 "Acme" true "x" (some "pre") (some "cmp")
    (some "sw") ["r1", "r2"] (by decide) (by decide) rfl rfl rfl rfl

/-! ## C8 -/

/-- C8: in a run that reaches the downstream stages, an error raised
by the underlying call of Normalize, Compare, SWOT, or Synthesis
propagates uncaught: the run aborts, the topic cache and the whole
session state are unchanged, and no output event (in particular no
partial output and no cache write) is produced. -/
theorem downstream_error_aborts (env : Env) (st : SessionState)
    (topic : String) (uc : Bool) (s : String)
    (hc : (uc && pyTruthyStr (get_cached_topic st topic).1) = false)
    (hs : (get_search_results env topic).1 = some s) :
    (∀ u, env.nlpRun (nlpPayload s) = .error u →
      abortedUnchanged (runFn env st topic uc) st) ∧
    (∀ pre u, env.nlpRun (nlpPayload s) = .ok pre →
      env.comparisonRun (comparisonPayload topic pre) = .error u →
      abortedUnchanged (runFn env st topic uc) st) ∧
    (∀ pre comp u, env.nlpRun (nlpPayload s) = .ok pre →
      env.comparisonRun (comparisonPayload topic pre) = .ok comp →
      env.swotRun (swotPayload topic pre comp) = .error u →
      abortedUnchanged (runFn env st topic uc) st) ∧
    (∀ pre comp sw u, env.nlpRun (nlpPayload s) = .ok pre →
      env.comparisonRun (comparisonPayload topic pre) = .ok comp →
      env.swotRun (swotPayload topic pre comp) = .ok sw →
      env.reportRunStream (reportPayload topic pre comp sw) = .error u →
      abortedUnchanged (runFn env st topic uc) st) := by
  refine ⟨?_, ?_, ?_, ?_⟩
  · intro u hn
    rw [abortedUnchanged, runFn_nlpErr env st topic uc s u hc hs hn]
    refine ⟨rfl, rfl, ?_, ?_⟩
    · rw [yields_append, search_yields]
      rfl
    · rw [cacheWrites_append, search_cacheWrites]
      rfl
  · intro pre u hn hcmp
    rw [abortedUnchanged, runFn_cmpErr env st topic uc s pre u hc hs hn hcmp]
    refine ⟨rfl, rfl, ?_, ?_⟩
    · rw [yields_append, search_yields]
      rfl
    · rw [cacheWrites_append, search_cacheWrites]
      rfl
  · intro pre comp u hn hcmp hsw
    rw [abortedUnchanged,
      runFn_swotErr env st topic uc s pre comp u hc hs hn hcmp hsw]
    refine ⟨rfl, rfl, ?_, ?_⟩
    · rw [yields_append, search_yields]
      rfl
    · rw [cacheWrites_append, search_cacheWrites]
      rfl
  · intro pre comp sw u hn hcmp hsw hr
    rw [abortedUnchanged,
      runFn_repErr env st topic uc s pre comp sw u hc hs hn hcmp hsw hr]
    refine ⟨rfl, rfl, ?_, ?_⟩
    · rw [yields_append, yields_append, search_yields]
      rfl
    · rw [cacheWrites_append, cacheWrites_append, search_cacheWrites]
      rfl

/-- Witness for `downstream_error_aborts`: the Normalize agent
raises. -/
theorem downstream_error_aborts_witness :
    abortedUnchanged (runFn envNlpErr st0 "Dell" true) st0 :=
  (downstream_error_aborts envNlpErr st0 "Dell" true "x" (by decide)
    (by decide)).1 () rfl

end ReportGen
